import Mathlib

/-! Shallow embedding of the offer-search backend (src/src/handlers.rs,
src/src/models.rs, src/src/db.rs): the offer data model, the filter block of
`query_offers`, its sort comparator, the pagination arithmetic of
`get_offers`, the parameter block of `get_offers`, the ingestion loop of
`create_offers`, the range delete of `cleanup_data`, the placeholder
aggregations, and the base64 payload codec of models.rs, together with
theorems settling the specification claims. -/

/-- Modulus of the unsigned 32-bit arithmetic used by `get_offers`
(`page`, `pageSize` and the widths are `u32`). -/
def U32MOD : Nat := 4294967296

/-- models.rs `Offer`: `ID : Uuid` is embedded as its 16 raw bytes
(`Uuid::as_bytes`, the store key), `data : Vec<u8>` as a byte list;
`i32`/`i64` fields become `Int`, `u8`/`u16` fields become `Nat`. -/
structure Offer where
  ID : List Nat
  data : List Nat
  mostSpecificRegionID : Int
  startDate : Int
  endDate : Int
  numberSeats : Nat
  price : Nat
  carType : String
  hasVollkasko : Bool
  freeKilometers : Nat
deriving Repr, DecidableEq

/-- models.rs `SearchResultOffer`: the projection (`ID`, `data`) that
`query_offers` pushes for each offer passing the filters. -/
structure SearchResultOffer where
  ID : List Nat
  data : List Nat
deriving Repr, DecidableEq

/-- models.rs `PriceRange` (field `end` renamed `stop`: `end` is reserved
in Lean). -/
structure PriceRange where
  start : Nat
  stop : Nat
  count : Nat
deriving Repr, DecidableEq

/-- models.rs `FreeKilometerRange` (field `end` renamed `stop`). -/
structure FreeKilometerRange where
  start : Nat
  stop : Nat
  count : Nat
deriving Repr, DecidableEq

/-- The filter parameters of handlers.rs `query_offers` (its arguments
`region_id` .. `min_free_kilometer`, without `sort_order`). -/
structure SearchQuery where
  regionId : Int
  timeRangeStart : Int
  timeRangeEnd : Int
  minNumberSeats : Option Nat
  minPrice : Option Nat
  maxPrice : Option Nat
  carType : Option String
  onlyVollkasko : Option Bool
  minFreeKilometer : Option Nat
deriving Repr, DecidableEq

/-- The filter block of `query_offers` (handlers.rs lines 145-181): the offer
is kept iff no `continue` fires.  Each `if .. continue` of the source becomes
one `if .. then false` here, in the source's order. -/
def keepOffer (offer : Offer) (q : SearchQuery) : Bool :=
  if offer.mostSpecificRegionID != q.regionId then false
  else if decide (offer.startDate > q.timeRangeEnd) ||
          decide (offer.endDate < q.timeRangeStart) then false
  else if (match q.minNumberSeats with
           | some minSeats => decide (offer.numberSeats < minSeats)
           | none => false) then false
  else if (match q.minPrice with
           | some minP => decide (offer.price < minP)
           | none => false) then false
  else if (match q.maxPrice with
           | some maxP => decide (offer.price ≥ maxP)
           | none => false) then false
  else if (match q.carType with
           | some ct => offer.carType != ct
           | none => false) then false
  else if (match q.onlyVollkasko with
           | some onlyVk => offer.hasVollkasko != onlyVk
           | none => false) then false
  else if (match q.minFreeKilometer with
           | some minFk => decide (offer.freeKilometers < minFk)
           | none => false) then false
  else true

/-- Lexicographic comparison of byte lists: the `Ord` instance of `Uuid`
(comparison of its 16 bytes), used by the sort comparator of
`query_offers` (`a.ID.cmp(&b.ID)`). -/
def cmpBytes : List Nat → List Nat → Ordering
  | [], [] => .eq
  | [], _ :: _ => .lt
  | _ :: _, [] => .gt
  | a :: as, b :: bs =>
    if a < b then .lt else if b < a then .gt else cmpBytes as bs

/-- The comparator closure of `offers.sort_by` in `query_offers`
(handlers.rs lines 192-198): it compares the offers' IDs only, the wildcard
arm silently treating any other `sort_order` like `"price-asc"`. -/
def sortComparator (sortOrder : String) (a b : SearchResultOffer) : Ordering :=
  match sortOrder with
  | "price-asc" => cmpBytes a.ID b.ID
  | "price-desc" => cmpBytes b.ID a.ID
  | _ => cmpBytes a.ID b.ID

/-- Stable insertion step: `x` goes before the first element it does not
compare greater than. -/
def insertSorted (le : α → α → Bool) (x : α) : List α → List α
  | [] => [x]
  | y :: ys => if le x y then x :: y :: ys else y :: insertSorted le x ys

/-- Stable sort by a boolean `le`, modelling Rust's stable `sort_by`. -/
def sortStable (le : α → α → Bool) : List α → List α
  | [] => []
  | x :: xs => insertSorted le x (sortStable le xs)

/-- Rust `slice::sort_by(cmp)` as a stable sort placing `a` before `b`
when `cmp a b ≠ Ordering.gt`. -/
def sort_by (cmp : α → α → Ordering) (l : List α) : List α :=
  sortStable (fun a b => match cmp a b with | .gt => false | _ => true) l

/-- handlers.rs `query_offers`: scan the snapshot (the store's values in
iteration order), keep the offers passing the filter block, project each to
`SearchResultOffer`, then sort with the ID comparator. -/
def query_offers (snapshot : List Offer) (q : SearchQuery)
    (sortOrder : String) : List SearchResultOffer :=
  sort_by (sortComparator sortOrder)
    ((snapshot.filter (fun o => keepOffer o q)).map
      (fun o => { ID := o.ID, data := o.data }))

/-- Rust release-mode `u32` wrapping of `page - 1` (handlers.rs line 78):
the subtraction wraps modulo 2^32 when `page = 0`. -/
def u32WrappingSub1 (page : Nat) : Nat := (page + (U32MOD - 1)) % U32MOD

/-- handlers.rs line 78: `let start_index = (page - 1) * page_size;`
in `u32` arithmetic. -/
def start_index (page pageSize : Nat) : Nat :=
  (u32WrappingSub1 page * pageSize) % U32MOD

/-- handlers.rs line 79: `let end_index = start_index + page_size;`
in `u32` arithmetic. -/
def end_index (page pageSize : Nat) : Nat :=
  (start_index page pageSize + pageSize) % U32MOD

/-- Rust `slice.get(s..e)`: `some` of the subslice when the whole range lies
inside the slice, `none` otherwise (also when only part of it does). -/
def sliceGet (xs : List α) (s e : Nat) : Option (List α) :=
  if s ≤ e ∧ e ≤ xs.length then some ((xs.drop s).take (e - s)) else none

/-- handlers.rs lines 78-82:
`offers.get(start_index..end_index).unwrap_or(&[]).to_vec()`. -/
def paginate (xs : List α) (page pageSize : Nat) : List α :=
  (sliceGet xs (start_index page pageSize) (end_index page pageSize)).getD []

/-- Value of a decimal digit character, `none` for any other character. -/
def digitVal (c : Char) : Option Nat :=
  if 48 ≤ c.toNat ∧ c.toNat ≤ 57 then some (c.toNat - 48) else none

/-- Accumulate decimal digits left to right; any non-digit fails. -/
def parseDigitsAux : List Char → Nat → Option Nat
  | [], acc => some acc
  | c :: cs, acc =>
    match digitVal c with
    | some d => parseDigitsAux cs (acc * 10 + d)
    | none => none

/-- A non-empty all-digit run parses to its decimal value. -/
def parseDigits : List Char → Option Nat
  | [] => none
  | cs => parseDigitsAux cs 0

/-- Rust `str::parse` for an unsigned integer type, before the range check:
an optional leading `+`, then one or more decimal digits. -/
def rustParseNat (s : String) : Option Nat :=
  match s.toList with
  | '+' :: cs => parseDigits cs
  | cs => parseDigits cs

/-- Rust `str::parse` for a signed integer type, before the range check:
an optional sign, then one or more decimal digits. -/
def rustParseInt (s : String) : Option Int :=
  match s.toList with
  | '-' :: cs => (parseDigits cs).map (fun n => -(n : Int))
  | '+' :: cs => (parseDigits cs).map (fun n => (n : Int))
  | cs => (parseDigits cs).map (fun n => (n : Int))

/-- Rust `str::parse::<u32>().unwrap_or_default()` (handlers.rs lines 37-52):
an unparseable or out-of-range value silently becomes 0. -/
def parseU32OrDefault (s : String) : Nat :=
  match rustParseNat s with
  | some n => if n < U32MOD then n else 0
  | none => 0

/-- Rust `str::parse::<i32>().unwrap_or_default()` (handlers.rs line 18). -/
def parseI32OrDefault (s : String) : Int :=
  match rustParseInt s with
  | some n => if -2147483648 ≤ n ∧ n < 2147483648 then n else 0
  | none => 0

/-- Rust `str::parse::<i64>().unwrap_or_default()` (handlers.rs lines 21-28). -/
def parseI64OrDefault (s : String) : Int :=
  match rustParseInt s with
  | some n =>
    if -9223372036854775808 ≤ n ∧ n < 9223372036854775808 then n else 0
  | none => 0

/-- Rust `str::parse::<u8>().ok()` for the optional parameters. -/
def parseU8Opt (s : String) : Option Nat :=
  match rustParseNat s with
  | some n => if n < 256 then some n else none
  | none => none

/-- Rust `str::parse::<u16>().ok()` for the optional parameters. -/
def parseU16Opt (s : String) : Option Nat :=
  match rustParseNat s with
  | some n => if n < 65536 then some n else none
  | none => none

/-- Rust `str::parse::<bool>().ok()`: only `"true"` and `"false"` parse. -/
def parseBoolOpt (s : String) : Option Bool :=
  if s = "true" then some true else if s = "false" then some false else none

/-- The parameters `get_offers` has extracted once its parameter block
(handlers.rs lines 17-60) is past: required scalars plus the optional
refinements. -/
structure ParsedSearchRequest where
  regionId : Int
  timeRangeStart : Int
  timeRangeEnd : Int
  numberDays : Int
  sortOrder : String
  page : Nat
  pageSize : Nat
  priceRangeWidth : Nat
  minFreeKilometerWidth : Nat
  minNumberSeats : Option Nat
  minPrice : Option Nat
  maxPrice : Option Nat
  carType : Option String
  onlyVollkasko : Option Bool
  minFreeKilometer : Option Nat
deriving Repr, DecidableEq

/-- The parameter block of `get_offers` (handlers.rs lines 17-60): each
required key missing from the query string is a 400 response; a present but
unparseable value is silently defaulted by `unwrap_or_default`; optional
keys parse to `none` on failure. -/
def validate_get_offers (params : List (String × String)) :
    Except String ParsedSearchRequest :=
  match params.lookup "regionID" with
  | none => .error "Missing regionID"
  | some regionID =>
  match params.lookup "timeRangeStart" with
  | none => .error "Missing timeRangeStart"
  | some timeRangeStart =>
  match params.lookup "timeRangeEnd" with
  | none => .error "Missing timeRangeEnd"
  | some timeRangeEnd =>
  match params.lookup "numberDays" with
  | none => .error "Missing numberDays"
  | some numberDays =>
  match params.lookup "sortOrder" with
  | none => .error "Missing sortOrder"
  | some sortOrder =>
  match params.lookup "page" with
  | none => .error "Missing page"
  | some page =>
  match params.lookup "pageSize" with
  | none => .error "Missing pageSize"
  | some pageSize =>
  match params.lookup "priceRangeWidth" with
  | none => .error "Missing priceRangeWidth"
  | some priceRangeWidth =>
  match params.lookup "minFreeKilometerWidth" with
  | none => .error "Missing minFreeKilometerWidth"
  | some minFreeKilometerWidth =>
    .ok { regionId := parseI32OrDefault regionID
          timeRangeStart := parseI64OrDefault timeRangeStart
          timeRangeEnd := parseI64OrDefault timeRangeEnd
          numberDays := parseI32OrDefault numberDays
          sortOrder := sortOrder
          page := parseU32OrDefault page
          pageSize := parseU32OrDefault pageSize
          priceRangeWidth := parseU32OrDefault priceRangeWidth
          minFreeKilometerWidth := parseU32OrDefault minFreeKilometerWidth
          minNumberSeats := (params.lookup "minNumberSeats").bind parseU8Opt
          minPrice := (params.lookup "minPrice").bind parseU16Opt
          maxPrice := (params.lookup "maxPrice").bind parseU16Opt
          carType := params.lookup "carType"
          onlyVollkasko := (params.lookup "onlyVollkasko").bind parseBoolOpt
          minFreeKilometer :=
            (params.lookup "minFreeKilometer").bind parseU16Opt }

/-- handlers.rs lines 107-110: `create_offers` takes the `offers` list from
the JSON body; a missing key or an empty list is a 400 response before any
store write. -/
def create_offers_validate (payload : List (String × List Offer)) :
    Except String (List Offer) :=
  match payload.lookup "offers" with
  | some offers => if offers.isEmpty then .error "Offers list is empty"
                   else .ok offers
  | none => .error "Offers list is empty"

/-- handlers.rs `compute_price_ranges` (lines 245-248): the aggregation is a
placeholder that ignores its input and returns no buckets. -/
def compute_price_ranges (offers : List SearchResultOffer) (width : Nat) :
    List PriceRange :=
  []

/-- handlers.rs `compute_free_kilometer_ranges` (lines 265-268): the
aggregation is a placeholder that ignores its input and returns no
buckets. -/
def compute_free_kilometer_ranges (offers : List SearchResultOffer)
    (width : Nat) : List FreeKilometerRange :=
  []

/-- The RocksDB default column family as an association list from key bytes
to stored offers. -/
abbrev Store := List (List Nat × Offer)

/-- RocksDB `db.put(key, value)`: overwrite the value when the key is
present, append a new record otherwise. -/
def dbPut (st : Store) (k : List Nat) (o : Offer) : Store :=
  if st.any (fun kv => kv.1 == k) then
    st.map (fun kv => if kv.1 == k then (k, o) else kv)
  else st ++ [(k, o)]

/-- handlers.rs `insert_offer` (lines 237-242): a single point write keyed
by `offer.ID.as_bytes()`. -/
def insert_offer (st : Store) (offer : Offer) : Store :=
  dbPut st offer.ID offer

/-- handlers.rs `insert_offers` (lines 226-235): the `WriteBatch` helper
(marked `TODO implement batch insert` and never called by the handlers) —
all puts of the batch applied as one write. -/
def insert_offers (st : Store) (offers : List Offer) : Store :=
  offers.foldl (fun s o => dbPut s o.ID o) st

/-- The loop of `create_offers` (handlers.rs lines 113-118): point writes
applied one at a time through `insert_offer`; on the first failing write the
handler returns 500 at once, keeping every earlier write.  `failKeys` are
the keys whose `put` the store fails (the mid-batch fault); the returned
`Bool` is whether the handler reports success. -/
def create_offers_insert_loop (failKeys : List (List Nat)) (st : Store) :
    List Offer → Store × Bool
  | [] => (st, true)
  | o :: rest =>
    if failKeys.contains o.ID then (st, false)
    else create_offers_insert_loop failKeys (insert_offer st o) rest

/-- Byte-lexicographic strict order on keys — the order RocksDB's default
comparator gives the raw key bytes. -/
def lexLtBytes (a b : List Nat) : Bool :=
  match cmpBytes a b with
  | .lt => true
  | _ => false

/-- handlers.rs `cleanup_data` (lines 203-222):
`delete_range_cf(&cf, b"", b"\xFF")` removes exactly the keys `k` with
`"" <= k < [0xFF]` (the upper bound exclusive); a record survives iff its
key is not lexicographically below the one-byte bound `[0xFF]`. -/
def cleanup_data (st : Store) : Store :=
  st.filter (fun kv => !(lexLtBytes kv.1 [255]))

/-- Modelled from the spec: models.rs encodes `data` through the external
crate call `base64::encode` — the standard RFC 4648 alphabet, index to
character. -/
def base64Char (n : Nat) : Char :=
  if n < 26 then Char.ofNat (65 + n)
  else if n < 52 then Char.ofNat (71 + n)
  else if n < 62 then Char.ofNat (n - 4)
  else if n = 62 then '+'
  else '/'

/-- Modelled from the spec: the inverse alphabet lookup of
`base64::decode`. -/
def base64Index (c : Char) : Option Nat :=
  if 65 ≤ c.toNat ∧ c.toNat ≤ 90 then some (c.toNat - 65)
  else if 97 ≤ c.toNat ∧ c.toNat ≤ 122 then some (c.toNat - 71)
  else if 48 ≤ c.toNat ∧ c.toNat ≤ 57 then some (c.toNat + 4)
  else if c = '+' then some 62
  else if c = '/' then some 63
  else none

/-- Modelled from the spec: `base64::encode` of models.rs — bytes three at
a time into four sextet characters, the final quantum padded with `=`. -/
def base64_encode : List Nat → List Char
  | [] => []
  | [a] => [base64Char (a / 4), base64Char (a % 4 * 16), '=', '=']
  | [a, b] => [base64Char (a / 4), base64Char (a % 4 * 16 + b / 16),
               base64Char (b % 16 * 4), '=']
  | a :: b :: c :: rest =>
    base64Char (a / 4) :: base64Char (a % 4 * 16 + b / 16) ::
      base64Char (b % 16 * 4 + c / 64) :: base64Char (c % 64) ::
        base64_encode rest

/-- Modelled from the spec: the final quantum of `base64::decode` — four
characters giving three, two (`=`) or one (`==`) byte. -/
def base64_decodeGroup (c1 c2 c3 c4 : Char) : Option (List Nat) :=
  match base64Index c1, base64Index c2 with
  | some w, some x =>
    if c3 = '=' then
      if c4 = '=' then some [w * 4 + x / 16] else none
    else
      match base64Index c3 with
      | some y =>
        if c4 = '=' then some [w * 4 + x / 16, x % 16 * 16 + y / 4]
        else
          match base64Index c4 with
          | some z =>
            some [w * 4 + x / 16, x % 16 * 16 + y / 4, y % 4 * 64 + z]
          | none => none
      | none => none
  | _, _ => none

/-- Modelled from the spec: `base64::decode` of models.rs — groups of four
characters, `=` padding only in the final group, any other shape
rejected. -/
def base64_decode : List Char → Option (List Nat)
  | [] => some []
  | c1 :: c2 :: c3 :: c4 :: rest =>
    if rest.isEmpty then base64_decodeGroup c1 c2 c3 c4
    else
      match base64Index c1, base64Index c2, base64Index c3, base64Index c4,
            base64_decode rest with
      | some w, some x, some y, some z, some bs =>
        some ((w * 4 + x / 16) :: (x % 16 * 16 + y / 4) ::
          (y % 4 * 64 + z) :: bs)
      | _, _, _, _, _ => none
  | _ => none

/-- Byte key of a fixture UUID whose first byte is 1. -/
def uuidOne : List Nat := 1 :: List.replicate 15 0

/-- Byte key of a fixture UUID whose first byte is 2. -/
def uuidTwo : List Nat := 2 :: List.replicate 15 0

/-- Byte key of a fixture UUID whose first byte is 0xFF. -/
def uuidFF : List Nat := 255 :: List.replicate 15 0

/-- Fixture offer: small ID, high price. -/
def offerOne : Offer :=
  { ID := uuidOne, data := [10], mostSpecificRegionID := 0, startDate := 0,
    endDate := 10, numberSeats := 4, price := 200, carType := "small",
    hasVollkasko := true, freeKilometers := 50 }

/-- Fixture offer: larger ID, lower price. -/
def offerTwo : Offer :=
  { ID := uuidTwo, data := [20], mostSpecificRegionID := 0, startDate := 0,
    endDate := 10, numberSeats := 2, price := 100, carType := "family",
    hasVollkasko := false, freeKilometers := 30 }

/-- Fixture offer stored under a key whose first byte is 0xFF. -/
def offerFF : Offer :=
  { ID := uuidFF, data := [30], mostSpecificRegionID := 0, startDate := 0,
    endDate := 10, numberSeats := 2, price := 80, carType := "small",
    hasVollkasko := false, freeKilometers := 10 }

/-- `offerOne` re-submitted with a different price. -/
def offerOneRepriced : Offer :=
  { offerOne with price := 150 }

/-- A query each fixture offer satisfies: region 0, window [0, 10], no
optional refinements. -/
def qAll : SearchQuery :=
  { regionId := 0, timeRangeStart := 0, timeRangeEnd := 10,
    minNumberSeats := none, minPrice := none, maxPrice := none,
    carType := none, onlyVollkasko := none, minFreeKilometer := none }

/-- Concrete result row used in the pagination statements. -/
def sroA : SearchResultOffer := { ID := List.replicate 16 1, data := [10] }

/-- Second concrete result row. -/
def sroB : SearchResultOffer := { ID := List.replicate 16 2, data := [20] }

/-- Third concrete result row. -/
def sroC : SearchResultOffer := { ID := List.replicate 16 3, data := [30] }

/-- Query parameters all present but with an unparseable `regionID` and
`timeRangeStart`, a `sortOrder` outside the two documented values, and zero
`pageSize` and widths. -/
def invalidValueParams : List (String × String) :=
  [("regionID", "abc"), ("timeRangeStart", "x"), ("timeRangeEnd", "200"),
   ("numberDays", "2"), ("sortOrder", "banana"), ("page", "1"),
   ("pageSize", "0"), ("priceRangeWidth", "0"),
   ("minFreeKilometerWidth", "0")]

/-- Query parameters with `page = 0` and every required key present. -/
def pageZeroParams : List (String × String) :=
  [("regionID", "7"), ("timeRangeStart", "100"), ("timeRangeEnd", "200"),
   ("numberDays", "2"), ("sortOrder", "price-asc"), ("page", "0"),
   ("pageSize", "10"), ("priceRangeWidth", "100"),
   ("minFreeKilometerWidth", "50")]

/-- The filter block keeps an offer exactly when every predicate of the
specification's §4.2 holds, each unset optional refinement constraining
nothing. -/
theorem keepOffer_eq_true_iff (o : Offer) (q : SearchQuery) :
    keepOffer o q = true ↔
      o.mostSpecificRegionID = q.regionId ∧
      o.startDate ≤ q.timeRangeEnd ∧
      q.timeRangeStart ≤ o.endDate ∧
      (∀ m, q.minNumberSeats = some m → m ≤ o.numberSeats) ∧
      (∀ p, q.minPrice = some p → p ≤ o.price) ∧
      (∀ p, q.maxPrice = some p → o.price < p) ∧
      (∀ c, q.carType = some c → o.carType = c) ∧
      (∀ b, q.onlyVollkasko = some b → o.hasVollkasko = b) ∧
      (∀ k, q.minFreeKilometer = some k → k ≤ o.freeKilometers) := by
  obtain ⟨r, ts, te, ns, mp, xp, ct, vk, fk⟩ := q
  unfold keepOffer
  rcases ns with _ | ns <;> rcases mp with _ | mp <;> rcases xp with _ | xp <;>
    rcases ct with _ | ct <;> rcases vk with _ | vk <;> rcases fk with _ | fk <;>
      simp [not_lt, and_assoc]

/-- C1: an offer is in the filtered set iff it is in the snapshot and
satisfies region equality, temporal overlap (`startDate ≤ timeRangeEnd` and
`endDate ≥ timeRangeStart`), `numberSeats ≥ minNumberSeats`,
`price ≥ minPrice`, `price < maxPrice` (strict), car-type equality,
vollkasko equality and `freeKilometers ≥ minFreeKilometer`, each optional
bound constraining nothing when unset. -/
theorem filtered_set_mem_iff (snapshot : List Offer) (o : Offer)
    (q : SearchQuery) :
    o ∈ snapshot.filter (fun x => keepOffer x q) ↔
      o ∈ snapshot ∧
      o.mostSpecificRegionID = q.regionId ∧
      o.startDate ≤ q.timeRangeEnd ∧
      q.timeRangeStart ≤ o.endDate ∧
      (∀ m, q.minNumberSeats = some m → m ≤ o.numberSeats) ∧
      (∀ p, q.minPrice = some p → p ≤ o.price) ∧
      (∀ p, q.maxPrice = some p → o.price < p) ∧
      (∀ c, q.carType = some c → o.carType = c) ∧
      (∀ b, q.onlyVollkasko = some b → o.hasVollkasko = b) ∧
      (∀ k, q.minFreeKilometer = some k → k ≤ o.freeKilometers) := by
  rw [List.mem_filter, keepOffer_eq_true_iff]

/-- C3 counterexample: one stored offer, `page = 1`, `pageSize = 2`.  The
claim says the last page returns the remaining offers (`[sroA]`), but
`get(0..2)` on a 1-element slice is `None`, so the handler returns the empty
list. -/
theorem paginate_partial_last_page_empty :
    paginate [sroA] 1 2 = [] ∧
    ([sroA].drop ((1 - 1) * 2)).take 2 = [sroA] ∧
    ([sroA] : List SearchResultOffer) ≠ [] := by decide

/-- Exact pagination behaviour while the `u32` index arithmetic does not
wrap: the returned page is the window `[(page-1)*pageSize, page*pageSize)`
when that whole window lies inside the list, and the empty list
otherwise. -/
theorem paginate_u32_exact (xs : List SearchResultOffer)
    (page pageSize : Nat) (h1 : 1 ≤ page) (h2 : page < U32MOD)
    (h3 : page * pageSize < U32MOD) :
    paginate xs page pageSize =
      if page * pageSize ≤ xs.length then
        (xs.drop ((page - 1) * pageSize)).take pageSize
      else [] := by
  obtain ⟨n, rfl⟩ : ∃ n, page = n + 1 := ⟨page - 1, by omega⟩
  have key : (n + 1) * pageSize = n * pageSize + pageSize :=
    Nat.succ_mul n pageSize
  have hle : n * pageSize ≤ (n + 1) * pageSize := by omega
  have hsub : u32WrappingSub1 (n + 1) = n := by
    simp only [u32WrappingSub1, U32MOD] at *
    omega
  have hs : start_index (n + 1) pageSize = n * pageSize := by
    simp only [start_index, hsub]
    exact Nat.mod_eq_of_lt (lt_of_le_of_lt hle h3)
  have he : end_index (n + 1) pageSize = (n + 1) * pageSize := by
    simp only [end_index, hs, ← key]
    exact Nat.mod_eq_of_lt h3
  simp only [paginate, sliceGet, hs, he]
  by_cases hlen : (n + 1) * pageSize ≤ xs.length
  · rw [if_pos ⟨hle, hlen⟩, if_pos hlen, Option.getD_some]
    have hdiff : (n + 1) * pageSize - n * pageSize = pageSize := by omega
    rw [hdiff]
    simp
  · rw [if_neg (fun hc => hlen hc.2), if_neg hlen]
    simp

/-- C3 amended: for `page ≥ 1` with `page < 2^32` and
`page * pageSize < 2^32` — the requests whose `u32` index arithmetic is
exact — the returned page is the offers at positions
`[(page-1)*pageSize, page*pageSize)` when that whole window lies inside the
ordered filtered set, and the empty list otherwise (so a final page holding
fewer than `pageSize` offers comes back empty, and a window past the end
yields an empty list, never an error); outside those bounds the `u32` index
computation wraps modulo `2^32` and can return a non-empty page at the
wrapped positions, as `page = 2^31 + 1`, `pageSize = 2` does on three
offers, returning the first two. -/
theorem paginate_window_or_empty_u32 :
    (∀ (xs : List SearchResultOffer) (page pageSize : Nat),
      1 ≤ page → page < U32MOD → page * pageSize < U32MOD →
      paginate xs page pageSize =
        if page * pageSize ≤ xs.length then
          (xs.drop ((page - 1) * pageSize)).take pageSize
        else []) ∧
    paginate [sroA, sroB, sroC] 2147483649 2 = [sroA, sroB] ∧
    paginate [sroA, sroB, sroC] 2 1 = [sroB] := by
  refine ⟨fun xs page pageSize h1 h2 h3 =>
    paginate_u32_exact xs page pageSize h1 h2 h3, by decide, by decide⟩

/-- C7 amended: the parameter block rejects a request exactly when a
required key is missing, and ingestion rejects exactly a missing or empty
`offers` list — each before any store access (neither function touches the
store); present-but-unparseable values, unknown `sortOrder` strings and
zero widths or page sizes are accepted, not rejected. -/
theorem validation_rejects_exactly_missing :
    (∀ params : List (String × String),
      (∃ r, validate_get_offers params = Except.ok r) ↔
        (params.lookup "regionID" ≠ none ∧
         params.lookup "timeRangeStart" ≠ none ∧
         params.lookup "timeRangeEnd" ≠ none ∧
         params.lookup "numberDays" ≠ none ∧
         params.lookup "sortOrder" ≠ none ∧
         params.lookup "page" ≠ none ∧
         params.lookup "pageSize" ≠ none ∧
         params.lookup "priceRangeWidth" ≠ none ∧
         params.lookup "minFreeKilometerWidth" ≠ none)) ∧
    (∀ payload : List (String × List Offer),
      (∃ l, create_offers_validate payload = Except.ok l) ↔
        (∃ l, payload.lookup "offers" = some l ∧ l ≠ [])) := by
  constructor
  · intro params
    unfold validate_get_offers
    rcases h1 : params.lookup "regionID" with _ | v1
    · simp [h1]
    rcases h2 : params.lookup "timeRangeStart" with _ | v2
    · simp [h1, h2]
    rcases h3 : params.lookup "timeRangeEnd" with _ | v3
    · simp [h1, h2, h3]
    rcases h4 : params.lookup "numberDays" with _ | v4
    · simp [h1, h2, h3, h4]
    rcases h5 : params.lookup "sortOrder" with _ | v5
    · simp [h1, h2, h3, h4, h5]
    rcases h6 : params.lookup "page" with _ | v6
    · simp [h1, h2, h3, h4, h5, h6]
    rcases h7 : params.lookup "pageSize" with _ | v7
    · simp [h1, h2, h3, h4, h5, h6, h7]
    rcases h8 : params.lookup "priceRangeWidth" with _ | v8
    · simp [h1, h2, h3, h4, h5, h6, h7, h8]
    rcases h9 : params.lookup "minFreeKilometerWidth" with _ | v9
    · simp [h1, h2, h3, h4, h5, h6, h7, h8, h9]
    simp [h1, h2, h3, h4, h5, h6, h7, h8, h9]
  · intro payload
    unfold create_offers_validate
    rcases h : payload.lookup "offers" with _ | l
    · simp [h]
    · cases l <;> simp [h]

/-- C7 counterexample: the request with unparseable values, an unknown
`sortOrder` and zero widths/pageSize is accepted, the unparseable values
silently defaulted to 0 — not rejected as a client error. -/
theorem invalid_values_not_rejected :
    validate_get_offers invalidValueParams = Except.ok
      { regionId := 0, timeRangeStart := 0, timeRangeEnd := 200,
        numberDays := 2, sortOrder := "banana", page := 1, pageSize := 0,
        priceRangeWidth := 0, minFreeKilometerWidth := 0,
        minNumberSeats := none, minPrice := none, maxPrice := none,
        carType := none, onlyVollkasko := none,
        minFreeKilometer := none } := by
  rfl

/-- C9: a request whose `page` parses to 0 is accepted (and an unparseable
`page` defaults to 0); for it, the unguarded `u32` subtraction `page - 1`
wraps to `2^32 - 1` instead of the mathematical value, while for every
`page ≥ 1` (below `2^32`) it equals the mathematical `page - 1` — so
`page ≥ 1` is necessary for the index arithmetic to be well defined. -/
theorem page_zero_start_index_underflows :
    (∃ r, validate_get_offers pageZeroParams = Except.ok r ∧ r.page = 0) ∧
    parseU32OrDefault "notanumber" = 0 ∧
    u32WrappingSub1 0 = U32MOD - 1 ∧
    ((u32WrappingSub1 0 : Int) ≠ (0 : Int) - 1) ∧
    (∀ page : Nat, 1 ≤ page → page < U32MOD →
      (u32WrappingSub1 page : Int) = (page : Int) - 1) := by
  refine ⟨⟨_, rfl, rfl⟩, by decide, by decide, by decide, ?_⟩
  intro page hp1 hp2
  simp only [u32WrappingSub1, U32MOD] at *
  omega

/-- C2: with `sortOrder = "price-asc"` the comparator orders by offer ID,
not price — the offer with the smaller ID but the higher price (200) comes
before the cheaper one (100); `"price-desc"` merely reverses the ID
order. -/
theorem sort_ignores_price :
    query_offers [offerOne, offerTwo] qAll "price-asc" =
      [{ ID := uuidOne, data := [10] }, { ID := uuidTwo, data := [20] }] ∧
    offerOne.price > offerTwo.price ∧
    query_offers [offerOne, offerTwo] qAll "price-desc" =
      [{ ID := uuidTwo, data := [20] }, { ID := uuidOne, data := [10] }] := by
  decide

/-- C4: both histogram aggregations are placeholders returning no buckets,
so with one filtered offer the bucket counts sum to 0, not to the number of
filtered offers. -/
theorem histograms_are_empty_stubs :
    compute_price_ranges [sroA] 100 = [] ∧
    compute_free_kilometer_ranges [sroA] 50 = [] ∧
    ((compute_price_ranges [sroA] 100).map PriceRange.count).sum = 0 ∧
    [sroA].length = 1 := by decide

/-- C5: ingesting `[offerOne, offerTwo]` against a store that fails the
write of `offerTwo` reports failure, yet `offerOne` is already committed
and visible — the batch is not atomic and the state is changed on error. -/
theorem batch_insert_not_atomic :
    create_offers_insert_loop [uuidTwo] [] [offerOne, offerTwo] =
      ([(uuidOne, offerOne)], false) ∧
    ([(uuidOne, offerOne)] : Store) ≠ [] := by decide

/-- C6: a stored offer whose key starts with byte 0xFF survives
`cleanup_data` — the range delete's exclusive upper bound `b"\xFF"` misses
it — and a search scanning after the wipe still returns it, while a key
starting below 0xFF is removed. -/
theorem wipe_misses_high_keys :
    cleanup_data [(uuidFF, offerFF)] = [(uuidFF, offerFF)] ∧
    query_offers ((cleanup_data [(uuidFF, offerFF)]).map Prod.snd) qAll
      "price-asc" = [{ ID := uuidFF, data := [30] }] ∧
    ([{ ID := uuidFF, data := [30] }] : List SearchResultOffer) ≠ [] ∧
    cleanup_data [(uuidOne, offerOne)] = [] := by decide

/-- The replacement map inside `dbPut` keeps every record's key
unchanged. -/
theorem dbPut_replace_keys (st : Store) (k : List Nat) (o : Offer) :
    (st.map (fun kv => if kv.1 == k then (k, o) else kv)).map Prod.fst =
      st.map Prod.fst := by
  rw [List.map_map]
  apply List.map_congr_left
  intro kv _
  simp only [Function.comp_apply]
  by_cases hb : kv.1 == k
  · rw [if_pos hb]
    exact (beq_iff_eq.mp hb).symm
  · rw [if_neg hb]

/-- `dbPut` passes through a head record whose key differs. -/
theorem dbPut_cons_ne (kv : List Nat × Offer) (st : Store) (k : List Nat)
    (o : Offer) (h : ¬kv.1 = k) :
    dbPut (kv :: st) k o = kv :: dbPut st k o := by
  unfold dbPut
  have hb : (kv.1 == k) = false := beq_eq_false_iff_ne.mpr h
  by_cases h2 : st.any (fun x => x.1 == k) <;> simp [h2, hb]
  exact fun hk => absurd hk h

/-- Values of records whose keys all differ from `k` never pass the ID
filter, provided each record's key is its offer's ID. -/
theorem filter_values_of_ne (st : Store) (k : List Nat)
    (hwk : ∀ kv ∈ st, kv.1 = kv.2.ID) (hne : ∀ kv ∈ st, kv.1 ≠ k) :
    (st.map Prod.snd).filter (fun x => x.ID == k) = [] := by
  induction st with
  | nil => simp
  | cons kv st ih =>
    have h1 : (kv.2.ID == k) = false := by
      apply beq_eq_false_iff_ne.mpr
      rw [← hwk kv (List.mem_cons_self kv st)]
      exact hne kv (List.mem_cons_self kv st)
    simp only [List.map_cons, List.filter_cons, h1, Bool.false_eq_true,
      if_neg]
    exact ih (fun x hx => hwk x (List.mem_cons_of_mem _ hx))
      (fun x hx => hne x (List.mem_cons_of_mem _ hx))

/-- `dbPut` preserves distinctness of the store's keys. -/
theorem dbPut_keys_nodup (st : Store) (k : List Nat) (o : Offer)
    (hnd : (st.map Prod.fst).Nodup) :
    ((dbPut st k o).map Prod.fst).Nodup := by
  unfold dbPut
  by_cases h : st.any (fun kv => kv.1 == k)
  · rw [if_pos h, dbPut_replace_keys]
    exact hnd
  · rw [if_neg h, List.map_append]
    simp only [List.any_eq_true, beq_iff_eq, not_exists] at h
    simp only [List.map_cons, List.map_nil, List.nodup_append]
    refine ⟨hnd, List.nodup_singleton k, ?_⟩
    intro a ha hak
    simp only [List.mem_singleton] at hak
    subst hak
    rw [List.mem_map] at ha
    obtain ⟨kv, hkv, hk⟩ := ha
    exact h kv ⟨hkv, hk⟩

/-- `insert_offer` preserves the invariant that every record's key is its
offer's ID. -/
theorem insert_offer_wellKeyed (st : Store) (o : Offer)
    (hwk : ∀ kv ∈ st, kv.1 = kv.2.ID) :
    ∀ kv ∈ insert_offer st o, kv.1 = kv.2.ID := by
  unfold insert_offer dbPut
  by_cases h : st.any (fun kv => kv.1 == o.ID)
  · rw [if_pos h]
    intro kv hkv
    rw [List.mem_map] at hkv
    obtain ⟨kv0, hkv0, rfl⟩ := hkv
    by_cases hb : kv0.1 == o.ID
    · rw [if_pos hb]
    · rw [if_neg hb]
      exact hwk kv0 hkv0
  · rw [if_neg h]
    intro kv hkv
    rw [List.mem_append] at hkv
    rcases hkv with h1 | h1
    · exact hwk kv h1
    · simp only [List.mem_singleton] at h1
      subst h1
      rfl

/-- After `insert_offer`, filtering the stored values by the inserted ID
finds exactly the one new record. -/
theorem insert_offer_filter_values (st : Store) (o : Offer)
    (hnd : (st.map Prod.fst).Nodup) (hwk : ∀ kv ∈ st, kv.1 = kv.2.ID) :
    ((insert_offer st o).map Prod.snd).filter (fun x => x.ID == o.ID) =
      [o] := by
  induction st with
  | nil => simp [insert_offer, dbPut]
  | cons kv st ih =>
    rw [List.map_cons, List.nodup_cons] at hnd
    by_cases hb : kv.1 = o.ID
    · have hany : ((kv :: st).any (fun x => x.1 == o.ID)) = true := by
        simp [List.any_cons, hb]
      unfold insert_offer dbPut
      rw [if_pos hany, List.map_cons]
      have hhead : (if kv.1 == o.ID then (o.ID, o) else kv) = (o.ID, o) := by
        rw [if_pos (beq_iff_eq.mpr hb)]
      rw [hhead]
      have htail : ∀ x ∈ st, x.1 ≠ o.ID := by
        intro x hx hxk
        apply hnd.1
        rw [hb, ← hxk]
        exact List.mem_map_of_mem Prod.fst hx
      have hmap :
          st.map (fun x => if x.1 == o.ID then (o.ID, o) else x) = st := by
        have := List.map_congr_left (l := st)
          (f := fun x => if x.1 == o.ID then (o.ID, o) else x) (g := id)
          (fun x hx => by
            have hxne : (x.1 == o.ID) = false :=
              beq_eq_false_iff_ne.mpr (htail x hx)
            simp [hxne])
        rw [this, List.map_id]
      rw [hmap, List.map_cons, List.filter_cons]
      simp only [beq_self_eq_true, if_pos]
      rw [filter_values_of_ne st o.ID
        (fun x hx => hwk x (List.mem_cons_of_mem _ hx)) htail]
    · rw [show insert_offer (kv :: st) o = kv :: insert_offer st o from
        dbPut_cons_ne kv st o.ID o hb]
      rw [List.map_cons, List.filter_cons]
      have h1 : (kv.2.ID == o.ID) = false := by
        apply beq_eq_false_iff_ne.mpr
        rw [← hwk kv (List.mem_cons_self kv st)]
        exact hb
      simp only [h1, Bool.false_eq_true, if_neg]
      exact ih hnd.2 (fun x hx => hwk x (List.mem_cons_of_mem _ hx))

/-- C8: re-inserting an offer whose ID is already stored overwrites the
record in place — after the write the store's keys are still distinct,
every key is still its offer's ID, and scanning the stored values finds
exactly one record with that ID carrying the new field values. -/
theorem upsert_overwrites_in_place (st : Store) (o : Offer)
    (hnd : (st.map Prod.fst).Nodup) (hwk : ∀ kv ∈ st, kv.1 = kv.2.ID) :
    ((insert_offer st o).map Prod.fst).Nodup ∧
    (∀ kv ∈ insert_offer st o, kv.1 = kv.2.ID) ∧
    ((insert_offer st o).map Prod.snd).filter (fun x => x.ID == o.ID) =
      [o] :=
  ⟨dbPut_keys_nodup st o.ID o hnd, insert_offer_wellKeyed st o hwk,
    insert_offer_filter_values st o hnd hwk⟩

/-- Witness for the upsert statement: re-inserting `offerOne` with price
150 over the store holding it at price 200 leaves one record with that ID,
now carrying price 150. -/
theorem upsert_overwrites_witness :
    ((insert_offer [(uuidOne, offerOne)] offerOneRepriced).map
      Prod.fst).Nodup ∧
    (∀ kv ∈ insert_offer [(uuidOne, offerOne)] offerOneRepriced,
      kv.1 = kv.2.ID) ∧
    ((insert_offer [(uuidOne, offerOne)] offerOneRepriced).map
      Prod.snd).filter (fun x => x.ID == offerOneRepriced.ID) =
      [offerOneRepriced] :=
  upsert_overwrites_in_place [(uuidOne, offerOne)] offerOneRepriced
    (by decide) (by decide)

/-- Every sextet decodes back from its alphabet character. -/
theorem base64Index_char : ∀ n < 64, base64Index (base64Char n) = some n := by
  decide

/-- No alphabet character is the padding character. -/
theorem base64Char_ne_pad : ∀ n < 64, base64Char n ≠ '=' := by decide

/-- An encoding is empty only for the empty byte list. -/
theorem base64_encode_eq_nil (l : List Nat) :
    base64_encode l = [] ↔ l = [] := by
  rcases l with _ | ⟨a, _ | ⟨b, _ | ⟨c, rest⟩⟩⟩ <;> simp [base64_encode]

/-- C10: decoding the base64 encoding of any byte vector returns exactly
the original bytes, so the opaque payload carried in an offer comes back
unmodified through the wire encoding. -/
theorem base64_decode_encode (bs : List Nat) (h : ∀ b ∈ bs, b < 256) :
    base64_decode (base64_encode bs) = some bs := by
  induction bs using base64_encode.induct with
  | case1 => rfl
  | case2 a =>
    have ha : a < 256 := h a (by simp)
    have h1 := base64Index_char (a / 4) (by omega)
    have h2 := base64Index_char (a % 4 * 16) (by omega)
    simp only [base64_encode, base64_decode, List.isEmpty_nil, if_true,
      base64_decodeGroup, h1, h2, if_pos rfl, Option.some.injEq,
      List.cons.injEq, and_true]
    omega
  | case3 a b =>
    have ha : a < 256 := h a (by simp)
    have hb : b < 256 := h b (by simp)
    have h1 := base64Index_char (a / 4) (by omega)
    have h2 := base64Index_char (a % 4 * 16 + b / 16) (by omega)
    have h3 := base64Index_char (b % 16 * 4) (by omega)
    have hne := base64Char_ne_pad (b % 16 * 4) (by omega)
    simp only [base64_encode, base64_decode, List.isEmpty_nil, if_true,
      base64_decodeGroup, h1, h2, h3, if_neg hne, if_pos rfl,
      Option.some.injEq, List.cons.injEq, and_true]
    omega
  | case4 a b c rest ih =>
    have ha : a < 256 := h a (by simp)
    have hb : b < 256 := h b (by simp)
    have hc : c < 256 := h c (by simp)
    have hrest : ∀ x ∈ rest, x < 256 := fun x hx => h x (by simp [hx])
    have h1 := base64Index_char (a / 4) (by omega)
    have h2 := base64Index_char (a % 4 * 16 + b / 16) (by omega)
    have h3 := base64Index_char (b % 16 * 4 + c / 64) (by omega)
    have h4 := base64Index_char (c % 64) (by omega)
    have hne3 := base64Char_ne_pad (b % 16 * 4 + c / 64) (by omega)
    have hne4 := base64Char_ne_pad (c % 64) (by omega)
    rcases hr : base64_encode rest with _ | ⟨d, ds⟩
    · have hrnil : rest = [] := (base64_encode_eq_nil rest).mp hr
      subst hrnil
      simp only [base64_encode, base64_decode, List.isEmpty_nil, if_true,
        base64_decodeGroup, h1, h2, h3, h4, if_neg hne3, if_neg hne4,
        Option.some.injEq, List.cons.injEq, and_true]
      omega
    · have hdec : base64_decode (d :: ds) = some rest := by
        rw [← hr]
        exact ih hrest
      simp only [base64_encode, hr, base64_decode, List.isEmpty_cons,
        Bool.false_eq_true, if_false, h1, h2, h3, h4, hdec,
        Option.some.injEq, List.cons.injEq]
      refine ⟨by omega, by omega, by omega, trivial⟩

/-- Witness for the base64 statement: a concrete three-byte payload
round-trips. -/
theorem base64_roundtrip_witness :
    base64_decode (base64_encode [0, 255, 7]) = some [0, 255, 7] :=
  base64_decode_encode [0, 255, 7] (by decide)
